import Mathlib

/-!
KeePassXC: character picker dialog and icon cache.

A shallow embedding of `src/autotype/PickcharsDialog.cpp` and of the cache part
of `src/gui/Icons.cpp`, followed by theorems about them.

Conventions of the embedding.

* A `QString` is the list of its UTF-16 code units (`QChar`), a code unit is a
  natural number.  `QString::length()` is the length of that list and the
  range-for loop of the constructor visits the code units in order.
* C++ `int` is `Int`.  Every integer computed by the modelled code is bounded
  by the length of a `QString`, which fits an `int`, so no wrap-around occurs.
* A pointer that may be null is an `Option`.  A function whose C++ body calls a
  member function through a null pointer returns `none` (the behaviour of the
  program is undefined there); otherwise it returns `some` of the next state.
* The widgets declared by the form (`charsGrid`, `selectedChars`, `pressTab`,
  the button box) appear as fields of the dialog state.  The grid is empty and
  the text of `selectedChars` is empty before the constructor body runs;
  `setText` stores the string it is given, and `setFocus` on a widget makes it
  the focus widget of the dialog.
* Every item of the grid occupies one cell (the constructor passes no span), so
  `itemAtPosition` compares the cell of an item with the requested position.
-/

namespace KeePassXC

/-! ## Toolkit data: strings, points, layout items -/

/-- One UTF-16 code unit. -/
abbrev QChar := Nat

/-- A string of the toolkit: its code units in order. -/
abbrev QString := List QChar

/-- Code units of a text given as a Lean string literal (ASCII in this file). -/
def QString.lit (s : String) : QString := s.toList.map Char.toNat

/-- Decimal rendering `QString::number(int)`. -/
def QString.number (n : Int) : QString :=
  if n < 0 then 45 :: (Nat.toDigits 10 n.natAbs).map Char.toNat
  else (Nat.toDigits 10 n.toNat).map Char.toNat

/-- The toolkit's `QString::left(int n)`: the whole string when `n` is negative
or not smaller than the size, the first `n` code units otherwise. -/
def QString.left (s : QString) (n : Int) : QString :=
  if n < 0 ∨ (s.length : Int) ≤ n then s else s.take n.toNat

/-- A point with integer coordinates. -/
structure QPoint where
  x : Int
  y : Int
deriving DecidableEq, Repr

/-- A push button of the character grid: its text and the two dynamic
properties the constructor attaches to it. -/
structure QPushButton where
  text : QString
  char : QChar
  gridpos : QPoint
deriving DecidableEq, Repr

/-- An item of a layout: a widget item or a spacer item. -/
inductive QLayoutItem where
  | widgetItem (btn : QPushButton)
  | spacerItem (w h : Int)
deriving DecidableEq, Repr

/-- The toolkit's `QLayoutItem::widget()`: the widget of a widget item, null for
a spacer item. -/
def QLayoutItem.widget : QLayoutItem → Option QPushButton
  | .widgetItem btn => some btn
  | .spacerItem _ _ => none

/-- One occupied cell of a grid layout. -/
structure QGridBox where
  item : QLayoutItem
  row : Int
  col : Int
deriving DecidableEq, Repr

/-- A grid layout: its items in insertion order, each with its cell. -/
structure QGridLayout where
  things : List QGridBox
deriving DecidableEq, Repr

namespace QGridLayout

/-- The grid of the form before the constructor fills it. -/
def empty : QGridLayout := ⟨[]⟩

/-- `addWidget(btn, row, col)`. -/
def addWidget (g : QGridLayout) (btn : QPushButton) (row col : Int) : QGridLayout :=
  ⟨g.things ++ [⟨.widgetItem btn, row, col⟩]⟩

/-- `addItem(item, row, col)`. -/
def addItem (g : QGridLayout) (item : QLayoutItem) (row col : Int) : QGridLayout :=
  ⟨g.things ++ [⟨item, row, col⟩]⟩

/-- `count()`. -/
def count (g : QGridLayout) : Int := g.things.length

/-- `itemAt(index)`: the item inserted at that index, null outside the range. -/
def itemAt (g : QGridLayout) (index : Int) : Option QLayoutItem :=
  if index < 0 then none else g.things[index.toNat]?.map QGridBox.item

/-- `itemAtPosition(row, column)`: the first item whose cell is the given one,
null when no item occupies it. -/
def itemAtPosition (g : QGridLayout) (row column : Int) : Option QLayoutItem :=
  (g.things.find? (fun box => decide (box.row = row) && decide (box.col = column))).map
    QGridBox.item

/-- The push buttons of the grid, in insertion order. -/
def buttons (g : QGridLayout) : List QPushButton :=
  g.things.filterMap (fun box => box.item.widget)

end QGridLayout

/-! ## PickcharsDialog -/

/-- The widgets of the dialog that can hold the keyboard focus. -/
inductive Widget where
  | button (btn : QPushButton)
  | selectedChars
  | pressTab
  | buttonBox
deriving DecidableEq, Repr

/-- State of a `PickcharsDialog`. -/
structure PickcharsDialog where
  /-- `m_ui->charsGrid` -/
  charsGrid : QGridLayout
  /-- text of the line edit `m_ui->selectedChars` -/
  selectedText : QString
  /-- check state of `m_ui->pressTab` -/
  pressTabChecked : Bool
  /-- `focusWidget()` -/
  focus : Option Widget
  /-- whether `reject()` has been called -/
  rejected : Bool
deriving DecidableEq, Repr

namespace PickcharsDialog

/-- Line 49: the number of columns of the grid. -/
def gridWidth (string : QString) : Int :=
  if (string.length : Int) ≥ 100 then 20 else if (string.length : Int) ≥ 60 then 15 else 10

/-- Lines 50-60: the loop over the code units of the string, as a function of
the loop variables `row`, `col` and of the grid. -/
def fillGrid (width : Int) : QString → Int → Int → QGridLayout → Int × Int × QGridLayout
  | [], row, col, grid => (row, col, grid)
  | ch :: rest, row, col, grid =>
    let btn : QPushButton :=
      { text := QString.number (row * width + col + 1), char := ch, gridpos := ⟨row, col⟩ }
    let grid := grid.addWidget btn row col
    if col + 1 ≥ width then fillGrid width rest (row + 1) 0 grid
    else fillGrid width rest row (col + 1) grid

/-- Lines 36-64: the constructor up to and including the spacer. -/
def build (string : QString) : PickcharsDialog :=
  let rejected := string.isEmpty
  let width := gridWidth string
  let (row, col, grid) := fillGrid width string 0 0 QGridLayout.empty
  let grid :=
    if row = 0 ∧ col ≤ 5 then grid.addItem (.spacerItem 5 5) row col else grid
  { charsGrid := grid, selectedText := [], pressTabChecked := false, focus := none,
    rejected := rejected }

/-- The statement `item->widget()->setFocus()`: undefined when the item has no widget. -/
def focusItem (d : PickcharsDialog) (item : QLayoutItem) : Option PickcharsDialog :=
  match item.widget with
  | none => none
  | some btn => some { d with focus := some (.button btn) }

/-- Line 65: `m_ui->charsGrid->itemAtPosition(0, 0)->widget()->setFocus()`. -/
def focusFirst (d : PickcharsDialog) : Option PickcharsDialog :=
  match d.charsGrid.itemAtPosition 0 0 with
  | none => none
  | some item => d.focusItem item

/-- The constructor `PickcharsDialog::PickcharsDialog(string, parent)`. -/
def new (string : QString) : Option PickcharsDialog :=
  (build string).focusFirst

/-- The handler of the backspace shortcut (lines 75-78). -/
def backspace (d : PickcharsDialog) : PickcharsDialog :=
  let text := d.selectedText
  { d with selectedText := text.left ((text.length : Int) - 1) }

/-- `PickcharsDialog::upPressed()`. -/
def upPressed (d : PickcharsDialog) : Option PickcharsDialog :=
  match d.focus with
  | none => some d
  | some (.button btn) =>
    match d.charsGrid.itemAtPosition (btn.gridpos.x - 1) btn.gridpos.y with
    | some item => d.focusItem item
    | none =>
      match d.charsGrid.itemAtPosition btn.gridpos.x (btn.gridpos.y - 1) with
      | some item => d.focusItem item
      | none => some { d with focus := some .pressTab }
  | some .selectedChars =>
    match d.charsGrid.itemAt (d.charsGrid.count - 1) with
    | some item => d.focusItem item
    | none => some d
  | some .pressTab => some { d with focus := some .selectedChars }
  | some .buttonBox => some d

/-- `PickcharsDialog::downPressed()`. -/
def downPressed (d : PickcharsDialog) : Option PickcharsDialog :=
  match d.focus with
  | none => some d
  | some (.button btn) =>
    match d.charsGrid.itemAtPosition (btn.gridpos.x + 1) btn.gridpos.y with
    | some item => d.focusItem item
    | none =>
      match d.charsGrid.itemAtPosition btn.gridpos.x (btn.gridpos.y + 1) with
      | some item => d.focusItem item
      | none => some { d with focus := some .selectedChars }
  | some .selectedChars => some { d with focus := some .pressTab }
  | some .pressTab => some d
  | some .buttonBox => some d

/-- `PickcharsDialog::selectedChars()`. -/
def selectedChars (d : PickcharsDialog) : QString := d.selectedText

/-- `PickcharsDialog::pressTab()`. -/
def pressTab (d : PickcharsDialog) : Bool := d.pressTabChecked

/-- `PickcharsDialog::charSelected()`, with `sender` the result of
`qobject_cast<QPushButton*>(sender())`. -/
def charSelected (d : PickcharsDialog) (sender : Option QPushButton) : PickcharsDialog :=
  match sender with
  | none => d
  | some btn => { d with selectedText := d.selectedText ++ [btn.char] }

end PickcharsDialog

/-! ## Icons -/

/-- A colour: whether it is valid, and its red, green and blue channels packed
in 24 bits. -/
structure QColor where
  valid : Bool
  rgb : Nat
deriving DecidableEq, Repr

/-- The code unit of one lower-case hexadecimal digit. -/
def hexDigit (d : Nat) : QChar := if d < 10 then 48 + d else 87 + d

namespace QColor

/-- `QColor::isValid()`. -/
def isValid (c : QColor) : Bool := c.valid

/-- `QColor::name()`: the character `#` followed by the six hexadecimal digits
of the red, green and blue channels. -/
def name (c : QColor) : QString :=
  let v := c.rgb % 2 ^ 24
  [35, hexDigit (v / 16 ^ 5 % 16), hexDigit (v / 16 ^ 4 % 16), hexDigit (v / 16 ^ 3 % 16),
    hexDigit (v / 16 ^ 2 % 16), hexDigit (v / 16 % 16), hexDigit (v % 16)]

/-- The default argument `QColor()` of `Icons::icon`: an invalid colour. -/
def invalid : QColor := ⟨false, 0⟩

end QColor

/-- An icon of the toolkit: the null icon, an icon loaded from a theme
(identified by a number standing for its pictures), or an icon painted by an
`AdaptiveIconEngine` around a base icon, with its mask flag. -/
inductive QIcon where
  | null
  | loaded (id : Nat)
  | adaptive (base : QIcon) (isMask : Bool)
deriving DecidableEq, Repr

/-- `QIcon::isNull()`. -/
def QIcon.isNull : QIcon → Bool
  | .null => true
  | _ => false

/-- `QHash<QString, QIcon>::value(key)`: the stored value, a default-constructed
(null) icon when the key is absent. -/
def QHash.value (h : List (QString × QIcon)) (key : QString) : QIcon :=
  match h.find? (fun kv => decide (kv.1 = key)) with
  | some kv => kv.2
  | none => QIcon.null

/-- `QHash<QString, QIcon>::insert(key, value)`: a value already stored under
the key is replaced. -/
def QHash.insert (h : List (QString × QIcon)) (key : QString) (value : QIcon) :
    List (QString × QIcon) :=
  (key, value) :: h.filter (fun kv => !decide (kv.1 = key))

/-- State read and written by `Icons::icon`: the cache member, the theme name
held by the toolkit, and the names passed to `QIcon::fromTheme` so far. -/
structure Icons where
  m_iconCache : List (QString × QIcon)
  themeName : QString
  themeLookups : List QString
deriving DecidableEq, Repr

namespace Icons

/-- The second argument of `arg` on line 164:
`overrideColor.isValid() ? overrideColor.name() : "#"`. -/
def overridePart (overrideColor : QColor) : QString :=
  if overrideColor.isValid then overrideColor.name else [35]

/-- Lines 163-164: the cache key `"%1:%2:%3"` filled with the recolor flag, the
override colour (or `#`) and the name.  The three-argument `arg` replaces the
three markers at once, so the result is the concatenation below. -/
def cacheName (name : QString) (recolor : Bool) (overrideColor : QColor) : QString :=
  (if recolor then [49] else [48]) ++ [58] ++ overridePart overrideColor ++ [58] ++ name

/-- Line 193: the cache key of `Icons::onOffIcon`. -/
def onOffCacheName (name : QString) : QString :=
  [111, 110, 111, 102, 102, 47] ++ name

/-- Lines 178-185: with the theme name reset to `application`, the icon the
theme resolves the name to, wrapped in an `AdaptiveIconEngine` and marked as a
mask when `recolor` is set.  `fromTheme themeName name` is the icon the toolkit
resolves `name` to under the theme `themeName`; `maskSupported` is the
compile-time test on the toolkit version. -/
def resolve (fromTheme : QString → QString → QIcon) (maskSupported : Bool)
    (name : QString) (recolor : Bool) : QIcon :=
  let icon := fromTheme (QString.lit "application") name
  if recolor then QIcon.adaptive icon maskSupported else icon

/-- `Icons::icon(name, recolor, overrideColor)`: the returned icon and the
state after the call. -/
def icon (fromTheme : QString → QString → QIcon) (maskSupported : Bool) (self : Icons)
    (name : QString) (recolor : Bool) (overrideColor : QColor) : QIcon × Icons :=
  let cacheName := cacheName name recolor overrideColor
  let icon := QHash.value self.m_iconCache cacheName
  if !icon.isNull && !overrideColor.isValid then (icon, self)
  else
    let icon := resolve fromTheme maskSupported name recolor
    (icon, { m_iconCache := QHash.insert self.m_iconCache cacheName icon,
             themeName := QString.lit "application",
             themeLookups := self.themeLookups ++ [name] })

end Icons

/-! ## Closed form of the grid built by the constructor -/

namespace PickcharsDialog

/-- The button of the cell with index `k` (counted from 0) in a grid of `w`
columns, for the character `ch`. -/
def cellButton (w k : Int) (ch : QChar) : QPushButton :=
  { text := QString.number (k + 1), char := ch, gridpos := ⟨k / w, k % w⟩ }

/-- The grid box of the cell with index `k`. -/
def cellBox (w k : Int) (ch : QChar) : QGridBox :=
  ⟨.widgetItem (cellButton w k ch), k / w, k % w⟩

/-- The boxes of the cells for the characters of a string, the first of them
having index `k`. -/
def cellsFrom (w : Int) : Int → QString → List QGridBox
  | _, [] => []
  | k, ch :: rest => cellBox w k ch :: cellsFrom w (k + 1) rest

/-- The dialog with the focus moved to the button at a grid position, when
that position holds a button. -/
def withFocusAt (d : PickcharsDialog) (row column : Int) : Option PickcharsDialog :=
  match d.charsGrid.itemAtPosition row column with
  | some (.widgetItem btn) => some { d with focus := some (.button btn) }
  | _ => none

/-- The button of a grid with the largest row index in a column, if the column
holds a button. -/
def lastInColumn (g : QGridLayout) (column : Int) : Option QPushButton :=
  g.buttons.foldl
    (fun best btn =>
      if btn.gridpos.y = column then
        match best with
        | none => some btn
        | some b => if b.gridpos.x < btn.gridpos.x then some btn else some b
      else best)
    none

/-- The spacer box the constructor adds after a short single row. -/
def spacerBoxes (len : Nat) : List QGridBox :=
  if len ≤ 5 then [⟨.spacerItem 5 5, 0, len⟩] else []

end PickcharsDialog

end KeePassXC

namespace KeePassXC

namespace PickcharsDialog

/-! ## Arithmetic of the loop variables -/

theorem succ_divmod_wrap (w k : Int) (hw : 0 < w) (h : k % w + 1 ≥ w) :
    (k + 1) / w = k / w + 1 ∧ (k + 1) % w = 0 := by
  have h1 := Int.emod_add_ediv k w
  have h2 := Int.emod_lt_of_pos k hw
  have h3 : w * (k / w + 1) = w * (k / w) + w := by ring
  exact (Int.ediv_emod_unique hw).2 ⟨by omega, le_refl _, hw⟩

theorem succ_divmod_step (w k : Int) (hw : 0 < w) (h : ¬ k % w + 1 ≥ w) :
    (k + 1) / w = k / w ∧ (k + 1) % w = k % w + 1 := by
  have h1 := Int.emod_add_ediv k w
  have h2 := Int.emod_nonneg k (ne_of_gt hw)
  exact (Int.ediv_emod_unique hw).2 ⟨by omega, by omega, by omega⟩

theorem divmod_recompose (w k : Int) : k / w * w + k % w + 1 = k + 1 := by
  have h1 := Int.emod_add_ediv k w
  have h2 : k / w * w = w * (k / w) := by ring
  omega

/-! ## The loop computes the closed form -/

theorem fillGrid_eq (w : Int) (hw : 0 < w) (s : QString) :
    ∀ (k : Int) (g : QGridLayout),
      fillGrid w s (k / w) (k % w) g
        = ((k + s.length) / w, (k + s.length) % w, ⟨g.things ++ cellsFrom w k s⟩) := by
  induction s with
  | nil => intro k g; simp [fillGrid, cellsFrom]
  | cons ch rest ih =>
    intro k g
    have hlen : k + ((ch :: rest).length : Int) = (k + 1) + (rest.length : Int) := by
      simp only [List.length_cons]; push_cast; ring
    rw [hlen]
    unfold fillGrid
    simp only [divmod_recompose]
    by_cases h : k % w + 1 ≥ w
    · obtain ⟨e1, e2⟩ := succ_divmod_wrap w k hw h
      have step := ih (k + 1)
      rw [e1, e2] at step
      rw [if_pos h, step]
      simp [QGridLayout.addWidget, cellsFrom, cellBox, cellButton]
    · obtain ⟨e1, e2⟩ := succ_divmod_step w k hw h
      have step := ih (k + 1)
      rw [e1, e2] at step
      rw [if_neg h, step]
      simp [QGridLayout.addWidget, cellsFrom, cellBox, cellButton]

theorem gridWidth_cases (s : QString) :
    (gridWidth s = 10 ∧ s.length < 60) ∨ (gridWidth s = 15 ∧ 60 ≤ s.length ∧ s.length < 100)
      ∨ (gridWidth s = 20 ∧ 100 ≤ s.length) := by
  unfold gridWidth
  split_ifs <;> omega

theorem gridWidth_pos (s : QString) : 0 < gridWidth s := by
  rcases gridWidth_cases s with h | h | h <;> omega

theorem build_things (s : QString) :
    (build s).charsGrid.things = cellsFrom (gridWidth s) 0 s ++ spacerBoxes s.length := by
  have hw := gridWidth_pos s
  have h := fillGrid_eq (gridWidth s) hw s 0 QGridLayout.empty
  simp only [Int.zero_ediv, Int.zero_emod, zero_add] at h
  unfold build
  simp only [h]
  have hcases := gridWidth_cases s
  unfold spacerBoxes
  by_cases h5 : s.length ≤ 5
  · have e1 : (s.length : Int) / gridWidth s = 0 := by
      rcases hcases with c | c | c <;> rw [c.1] <;> omega
    have e2 : (s.length : Int) % gridWidth s = s.length := by
      rcases hcases with c | c | c <;> rw [c.1] <;> omega
    have e3 : (s.length : Int) ≤ 5 := by omega
    simp [e1, e2, e3, h5, QGridLayout.addItem, QGridLayout.empty]
  · have e : ¬ ((s.length : Int) / gridWidth s = 0 ∧ (s.length : Int) % gridWidth s ≤ 5) := by
      rcases hcases with c | c | c <;> rw [c.1] <;> omega
    simp [e, h5, QGridLayout.empty]

/-! ## Items of the closed form -/

theorem cellsFrom_length (w : Int) (s : QString) :
    ∀ k : Int, (cellsFrom w k s).length = s.length := by
  induction s with
  | nil => intro k; rfl
  | cons ch rest ih => intro k; simp [cellsFrom, ih]

theorem cellsFrom_getElem? (w : Int) (s : QString) :
    ∀ (k : Int) (i : Nat), (cellsFrom w k s)[i]? = s[i]?.map (cellBox w (k + i)) := by
  induction s with
  | nil => intro k i; simp [cellsFrom]
  | cons ch rest ih =>
    intro k i
    cases i with
    | zero => simp [cellsFrom]
    | succ n =>
      simp only [cellsFrom, List.getElem?_cons_succ, ih]
      have e : k + 1 + (n : Int) = k + ((n + 1 : Nat) : Int) := by push_cast; ring
      rw [e]

theorem cellsFrom_buttons (w : Int) (s : QString) :
    ∀ k : Int, ((cellsFrom w k s).filterMap (fun box => box.item.widget)).length = s.length := by
  induction s with
  | nil => intro k; rfl
  | cons ch rest ih =>
    intro k
    have h : (fun box : QGridBox => box.item.widget) (cellBox w k ch)
        = some (cellButton w k ch) := rfl
    rw [cellsFrom, List.filterMap_cons_some (f := fun box : QGridBox => box.item.widget) h,
      List.length_cons, ih, List.length_cons]

theorem cellsFrom_mem (w : Int) (s : QString) :
    ∀ (k : Int) (b : QGridBox), b ∈ cellsFrom w k s → ∃ i ch, k ≤ i ∧ b = cellBox w i ch := by
  induction s with
  | nil => intro k b hb; simp [cellsFrom] at hb
  | cons ch rest ih =>
    intro k b hb
    simp only [cellsFrom, List.mem_cons] at hb
    rcases hb with hb | hb
    · exact ⟨k, ch, le_refl _, hb⟩
    · obtain ⟨i, c, hi, e⟩ := ih (k + 1) b hb
      exact ⟨i, c, by omega, e⟩

/-- The item found at the cell of index `j` among the cells from index `k` on. -/
theorem cellsFrom_find (w : Int) (j : Int) (s : QString) :
    ∀ k : Int, k ≤ j →
      (cellsFrom w k s).find? (fun box => decide (box.row = j / w) && decide (box.col = j % w))
        = s[(j - k).toNat]?.map (cellBox w j) := by
  induction s with
  | nil => intro k _; simp [cellsFrom]
  | cons ch rest ih =>
    intro k hk
    by_cases hjk : k = j
    · subst hjk
      simp [cellsFrom, cellBox]
    · have hne : ¬ (k / w = j / w ∧ k % w = j % w) := by
        rintro ⟨h1, h2⟩
        have a1 := Int.emod_add_ediv k w
        have a2 := Int.emod_add_ediv j w
        rw [h1, h2] at a1
        omega
      have hstep : (j - k).toNat = (j - (k + 1)).toNat + 1 := by omega
      rw [hstep, List.getElem?_cons_succ, ← ih (k + 1) (by omega)]
      simp only [cellsFrom]
      rw [List.find?_cons_of_neg]
      simpa [cellBox] using hne

/-- No cell lies outside the rows from 0 on and the columns `0 .. w - 1`. -/
theorem cellsFrom_find_outside (w : Int) (hw : 0 < w) (s : QString) (r c : Int)
    (h : r < 0 ∨ c < 0 ∨ w ≤ c) :
    (cellsFrom w 0 s).find? (fun box => decide (box.row = r) && decide (box.col = c)) = none := by
  rw [List.find?_eq_none]
  intro b hb
  obtain ⟨i, ch, hi, e⟩ := cellsFrom_mem w s 0 b hb
  subst e
  have h1 := Int.ediv_nonneg hi (le_of_lt hw)
  have h2 := Int.emod_nonneg i (ne_of_gt hw)
  have h3 := Int.emod_lt_of_pos i hw
  simp only [cellBox, Bool.and_eq_true, decide_eq_true_eq, not_and]
  intro e1 e2
  omega

theorem divmod_of_cell (w r c : Int) (hc0 : 0 ≤ c) (hcw : c < w) :
    (r * w + c) / w = r ∧ (r * w + c) % w = c := by
  have hw : 0 < w := by omega
  have e : w * r = r * w := by ring
  exact (Int.ediv_emod_unique hw).2 ⟨by omega, hc0, hcw⟩

/-- The item at a position inside the column range, among the cells alone. -/
theorem cellsFrom_find_cell (w : Int) (s : QString) (r c : Int) (hr : 0 ≤ r) (hc0 : 0 ≤ c)
    (hcw : c < w) :
    (cellsFrom w 0 s).find? (fun box => decide (box.row = r) && decide (box.col = c))
      = s[(r * w + c).toNat]?.map (cellBox w (r * w + c)) := by
  obtain ⟨e1, e2⟩ := divmod_of_cell w r c hc0 hcw
  have hj : (0 : Int) ≤ r * w + c := by
    have := Int.mul_nonneg hr (by omega : (0 : Int) ≤ w)
    omega
  have h := cellsFrom_find w (r * w + c) s 0 hj
  rw [e1, e2] at h
  simpa using h

/-! ## The constructed dialog -/

/-- The item at a grid position of the dialog after lines 36-64. -/
theorem build_itemAtPosition (s : QString) (r c : Int) :
    (build s).charsGrid.itemAtPosition r c
      = if 0 ≤ r ∧ 0 ≤ c ∧ c < gridWidth s then
          (s[(r * gridWidth s + c).toNat]?.map
              (fun ch => QLayoutItem.widgetItem (cellButton (gridWidth s) (r * gridWidth s + c) ch))).or
            (if s.length ≤ 5 ∧ r = 0 ∧ c = s.length then some (.spacerItem 5 5) else none)
        else none := by
  have hw := gridWidth_pos s
  have hcases := gridWidth_cases s
  unfold QGridLayout.itemAtPosition
  rw [build_things, List.find?_append]
  by_cases hin : 0 ≤ r ∧ 0 ≤ c ∧ c < gridWidth s
  · rw [if_pos hin, cellsFrom_find_cell (gridWidth s) s r c hin.1 hin.2.1 hin.2.2]
    cases hch : s[(r * gridWidth s + c).toNat]? with
    | some ch => simp [cellBox]
    | none =>
      unfold spacerBoxes
      by_cases h5 : s.length ≤ 5
      · by_cases hpos : r = 0 ∧ c = s.length
        · obtain ⟨h1, h2⟩ := hpos
          simp [h5, h1, h2]
        · have hpos2 : ¬ (0 = r ∧ (s.length : Int) = c) := fun h => hpos ⟨h.1.symm, h.2.symm⟩
          simp [h5, hpos, hpos2]
      · simp [h5]
  · rw [if_neg hin]
    have hout : r < 0 ∨ c < 0 ∨ gridWidth s ≤ c := by omega
    rw [cellsFrom_find_outside (gridWidth s) hw s r c hout]
    unfold spacerBoxes
    by_cases h5 : s.length ≤ 5
    · have hpos2 : ¬ (0 = r ∧ (s.length : Int) = c) := by
        rcases hcases with w | w | w <;> omega
      simp [h5, hpos2]
    · simp [h5]

/-- The constructor succeeds on a non-empty string: the focus goes to the first
cell and nothing else changes after lines 36-64. -/
theorem new_cons (ch : QChar) (rest : QString) :
    new (ch :: rest)
      = some { build (ch :: rest) with
          focus := some (.button (cellButton (gridWidth (ch :: rest)) 0 ch)) } := by
  have hw := gridWidth_pos (ch :: rest)
  unfold new focusFirst
  rw [build_itemAtPosition]
  simp [hw, focusItem, QLayoutItem.widget]

theorem new_charsGrid (s : QString) (d : PickcharsDialog) (hd : new s = some d) :
    s ≠ [] ∧ d.charsGrid = (build s).charsGrid := by
  cases s with
  | nil =>
    have hnil : new [] = none := by decide
    rw [hnil] at hd
    cases hd
  | cons ch rest =>
    rw [new_cons] at hd
    cases hd
    exact ⟨by simp, rfl⟩

/-! ## Construction: width, cells, numbering -/

theorem gridWidth_eq (s : QString) :
    gridWidth s = (if 100 ≤ s.length then 20 else if 60 ≤ s.length then 15 else 10) := by
  rcases gridWidth_cases s with c | c | c
  · rw [c.1, if_neg (by omega), if_neg (by omega)]
  · rw [c.1, if_neg (by omega), if_pos (by omega)]
  · rw [c.1, if_pos (by omega)]

/-- The positions of the grid after lines 36-64 that hold a push button. -/
theorem build_button_iff (s : QString) (r c : Int) :
    (∃ btn, (build s).charsGrid.itemAtPosition r c = some (.widgetItem btn)) ↔
      0 ≤ r ∧ 0 ≤ c ∧ c < gridWidth s ∧ r * gridWidth s + c < s.length := by
  have hw := gridWidth_pos s
  rw [build_itemAtPosition]
  constructor
  · rintro ⟨btn, h⟩
    by_cases hin : 0 ≤ r ∧ 0 ≤ c ∧ c < gridWidth s
    · rw [if_pos hin] at h
      cases hch : s[(r * gridWidth s + c).toNat]? with
      | none =>
        rw [hch] at h
        split_ifs at h <;> simp at h
      | some ch =>
        have hlt : (r * gridWidth s + c).toNat < s.length := by
          by_contra hge
          rw [List.getElem?_eq_none (by omega)] at hch
          cases hch
        have hnn : 0 ≤ r * gridWidth s := Int.mul_nonneg hin.1 (le_of_lt hw)
        exact ⟨hin.1, hin.2.1, hin.2.2, by omega⟩
    · rw [if_neg hin] at h
      cases h
  · rintro ⟨hr, hc0, hcw, hlt⟩
    have hnn : 0 ≤ r * gridWidth s := Int.mul_nonneg hr (le_of_lt hw)
    have hidx : (r * gridWidth s + c).toNat < s.length := by omega
    rw [if_pos ⟨hr, hc0, hcw⟩, List.getElem?_eq_getElem hidx]
    exact ⟨_, rfl⟩

/-- C1: for a source string of length `L ≥ 1` the constructor uses 20 columns
if `L ≥ 100`, 15 columns if `60 ≤ L < 100` and 10 columns otherwise, and it
completes.  With `W` that number of columns, the grid then holds exactly `L`
push buttons, each of them recorded in a column below `W`, and the positions
of the grid that hold a push button are exactly the positions `(r, c)` with
`0 ≤ r`, `0 ≤ c < W` and `r * W + c < L`: the rows are filled left to right,
`W` buttons to a row. -/
theorem new_width_and_cell_count (s : QString) (hs : 1 ≤ s.length) :
    gridWidth s = (if 100 ≤ s.length then 20 else if 60 ≤ s.length then 15 else 10) ∧
      ∃ d, new s = some d ∧ d.charsGrid.buttons.length = s.length ∧
        (∀ btn ∈ d.charsGrid.buttons, 0 ≤ btn.gridpos.y ∧ btn.gridpos.y < gridWidth s) ∧
        ∀ r c : Int,
          (∃ btn, d.charsGrid.itemAtPosition r c = some (.widgetItem btn)) ↔
            0 ≤ r ∧ 0 ≤ c ∧
              c < (if 100 ≤ s.length then 20 else if 60 ≤ s.length then 15 else 10 : Int) ∧
              r * (if 100 ≤ s.length then 20 else if 60 ≤ s.length then 15 else 10 : Int) + c
                < s.length := by
  refine ⟨gridWidth_eq s, ?_⟩
  cases s with
  | nil => simp at hs
  | cons ch rest =>
    have hw := gridWidth_pos (ch :: rest)
    refine ⟨_, new_cons ch rest, ?_, ?_, ?_⟩
    · show ((build (ch :: rest)).charsGrid.things.filterMap _).length = _
      rw [build_things, List.filterMap_append, List.length_append, cellsFrom_buttons]
      unfold spacerBoxes
      split_ifs <;> simp [QLayoutItem.widget]
    · intro btn hbtn
      have hmem : btn ∈ (build (ch :: rest)).charsGrid.things.filterMap
          (fun box => box.item.widget) := hbtn
      rw [build_things, List.mem_filterMap] at hmem
      obtain ⟨box, hbox, hitem⟩ := hmem
      rcases List.mem_append.1 hbox with hc | hsp
      · obtain ⟨i, c, _, e⟩ := cellsFrom_mem _ _ 0 box hc
        subst e
        have e2 : btn = cellButton (gridWidth (ch :: rest)) i c := by
          simpa [cellBox, QLayoutItem.widget] using hitem.symm
        subst e2
        exact ⟨Int.emod_nonneg i (ne_of_gt hw), Int.emod_lt_of_pos i hw⟩
      · unfold spacerBoxes at hsp
        split_ifs at hsp
        · simp only [List.mem_singleton] at hsp
          subst hsp
          simp [QLayoutItem.widget] at hitem
        · simp at hsp
    · intro r c
      rw [← gridWidth_eq (ch :: rest)]
      exact build_button_iff (ch :: rest) r c

/-- Witness of `new_width_and_cell_count`: the string `abc`. -/
theorem new_width_and_cell_count_witness :
    gridWidth [97, 98, 99]
        = (if 100 ≤ ([97, 98, 99] : QString).length then 20
            else if 60 ≤ ([97, 98, 99] : QString).length then 15 else 10) ∧
      ∃ d, new [97, 98, 99] = some d ∧
        d.charsGrid.buttons.length = ([97, 98, 99] : QString).length ∧
        (∀ btn ∈ d.charsGrid.buttons,
          0 ≤ btn.gridpos.y ∧ btn.gridpos.y < gridWidth [97, 98, 99]) ∧
        ∀ r c : Int,
          (∃ btn, d.charsGrid.itemAtPosition r c = some (.widgetItem btn)) ↔
            0 ≤ r ∧ 0 ≤ c ∧
              c < (if 100 ≤ ([97, 98, 99] : QString).length then 20
                else if 60 ≤ ([97, 98, 99] : QString).length then 15 else 10 : Int) ∧
              r * (if 100 ≤ ([97, 98, 99] : QString).length then 20
                else if 60 ≤ ([97, 98, 99] : QString).length then 15 else 10 : Int) + c
                < ([97, 98, 99] : QString).length :=
  new_width_and_cell_count [97, 98, 99] (by decide)

/-- C2: for a non-empty source string `s`, `w` the chosen width and `k` below
the length of `s`, the constructor completes and the `k`-th item it put in the
grid is a button carrying `s[k]`, labelled `k + 1`, recorded and placed at row
`k / w` and column `k % w`, which is also the item found at that position; the
focus is on the button labelled 1 at position (0,0), carrying the first
character. -/
theorem new_cell_numbering (s : QString) (k : Nat) (hk : k < s.length) :
    ∃ d, new s = some d ∧
      d.charsGrid.things[k]?
        = some ⟨.widgetItem ⟨QString.number ((k : Int) + 1), s[k],
            ⟨(k : Int) / gridWidth s, (k : Int) % gridWidth s⟩⟩,
            (k : Int) / gridWidth s, (k : Int) % gridWidth s⟩ ∧
      d.charsGrid.itemAtPosition ((k : Int) / gridWidth s) ((k : Int) % gridWidth s)
        = some (.widgetItem ⟨QString.number ((k : Int) + 1), s[k],
            ⟨(k : Int) / gridWidth s, (k : Int) % gridWidth s⟩⟩) ∧
      ∃ first, s.head? = some first ∧
        d.focus = some (.button ⟨QString.number 1, first, ⟨0, 0⟩⟩) := by
  cases s with
  | nil => simp at hk
  | cons ch rest =>
    have hw := gridWidth_pos (ch :: rest)
    refine ⟨_, new_cons ch rest, ?_, ?_, ch, rfl, ?_⟩
    · show (build (ch :: rest)).charsGrid.things[k]? = _
      rw [build_things, List.getElem?_append_left (by rw [cellsFrom_length]; exact hk),
        cellsFrom_getElem?, List.getElem?_eq_getElem hk]
      simp [cellBox, cellButton]
    · show (build (ch :: rest)).charsGrid.itemAtPosition _ _ = _
      have h1 := Int.emod_nonneg (k : Int) (ne_of_gt hw)
      have h2 := Int.emod_lt_of_pos (k : Int) hw
      have h3 : (0 : Int) ≤ (k : Int) / gridWidth (ch :: rest) :=
        Int.ediv_nonneg (by omega) (le_of_lt hw)
      have h4 : (k : Int) / gridWidth (ch :: rest) * gridWidth (ch :: rest)
          + (k : Int) % gridWidth (ch :: rest) = k := by
        have := divmod_recompose (gridWidth (ch :: rest)) k
        omega
      rw [build_itemAtPosition, if_pos ⟨h3, h1, h2⟩, h4]
      simp [List.getElem?_eq_getElem hk, cellButton]
    · simp [cellButton, hw]

/-- Witness of `new_cell_numbering`: the string `abc` and its last index. -/
theorem new_cell_numbering_witness :
    ∃ d, new [97, 98, 99] = some d ∧
      d.charsGrid.things[2]?
        = some ⟨.widgetItem ⟨QString.number ((2 : Nat) + 1), 99,
            ⟨((2 : Nat) : Int) / gridWidth [97, 98, 99],
              ((2 : Nat) : Int) % gridWidth [97, 98, 99]⟩⟩,
            ((2 : Nat) : Int) / gridWidth [97, 98, 99],
            ((2 : Nat) : Int) % gridWidth [97, 98, 99]⟩ ∧
      d.charsGrid.itemAtPosition (((2 : Nat) : Int) / gridWidth [97, 98, 99])
          (((2 : Nat) : Int) % gridWidth [97, 98, 99])
        = some (.widgetItem ⟨QString.number ((2 : Nat) + 1), 99,
            ⟨((2 : Nat) : Int) / gridWidth [97, 98, 99],
              ((2 : Nat) : Int) % gridWidth [97, 98, 99]⟩⟩) ∧
      ∃ first, ([97, 98, 99] : QString).head? = some first ∧
        d.focus = some (.button ⟨QString.number 1, first, ⟨0, 0⟩⟩) :=
  new_cell_numbering [97, 98, 99] 2 (by decide)

/-! ## Selection buffer -/

/-- C3: starting from an empty selection buffer, after one `charSelected` per
activated button, in order, `selectedChars()` is the string of the characters
carried by those buttons; one activation appends the character of its button
at the end of the buffer and keeps what was there. -/
theorem charSelected_sequence (d : PickcharsDialog) (btns : List QPushButton)
    (h : d.selectedChars = []) :
    (btns.foldl (fun st btn => st.charSelected (some btn)) d).selectedChars
        = btns.map QPushButton.char ∧
      ∀ (st : PickcharsDialog) (btn : QPushButton),
        (st.charSelected (some btn)).selectedChars = st.selectedChars ++ [btn.char] := by
  have step : ∀ (st : PickcharsDialog) (btn : QPushButton),
      (st.charSelected (some btn)).selectedChars = st.selectedChars ++ [btn.char] :=
    fun _ _ => rfl
  have gen : ∀ (l : List QPushButton) (st : PickcharsDialog),
      (l.foldl (fun st btn => st.charSelected (some btn)) st).selectedChars
        = st.selectedChars ++ l.map QPushButton.char := by
    intro l
    induction l with
    | nil => intro st; simp
    | cons b rest ih => intro st; simp [List.foldl_cons, ih, step]
  exact ⟨by rw [gen, h, List.nil_append], step⟩

/-- Witness of `charSelected_sequence`: the buttons of `a`, `b`, `a` pressed
on a fresh dialog. -/
theorem charSelected_sequence_witness :
    (([⟨[49], 97, ⟨0, 0⟩⟩, ⟨[50], 98, ⟨0, 1⟩⟩, ⟨[49], 97, ⟨0, 0⟩⟩] : List QPushButton).foldl
        (fun st btn => st.charSelected (some btn)) (build [97, 98])).selectedChars
      = [97, 98, 97] :=
  (charSelected_sequence (build [97, 98]) _ (by decide)).1

/-- C4: the backspace handler replaces the buffer by the buffer without its
last character and changes nothing else; on the empty buffer, where the
computed length is -1, the buffer stays empty. -/
theorem backspace_removes_last (d : PickcharsDialog) (t : QString) (c : QChar) :
    backspace d = { d with selectedText := d.selectedText.dropLast } ∧
      (backspace { d with selectedText := t ++ [c] }).selectedChars = t ∧
      (backspace { d with selectedText := [] }).selectedChars = [] ∧
      (([] : QString).length : Int) - 1 = -1 := by
  have gen : ∀ u : QString, QString.left u ((u.length : Int) - 1) = u.dropLast := by
    intro u
    unfold QString.left
    by_cases hu : u = []
    · subst hu; simp
    · have hpos : 0 < u.length := List.length_pos.2 hu
      rw [if_neg (by omega), List.dropLast_eq_take]
      congr 1
      omega
  refine ⟨?_, ?_, ?_, by simp⟩
  · show ({ d with selectedText :=
        QString.left d.selectedText ((d.selectedText.length : Int) - 1) } : PickcharsDialog) = _
    rw [gen]
  · show QString.left (t ++ [c]) (((t ++ [c]).length : Int) - 1) = t
    rw [gen, List.dropLast_concat]
  · show QString.left [] ((([] : QString).length : Int) - 1) = []
    rw [gen]
    rfl

/-! ## The empty string -/

/-- C5, evaluated on the empty string: `reject()` is called, the loop adds no
button, the spacer is added at position (0,0), the lookup of position (0,0)
finds that spacer, whose `widget()` is null, and `setFocus()` is called through
this null pointer. -/
theorem new_empty_string :
    (build []).rejected = true ∧
      (build []).charsGrid.things = [⟨.spacerItem 5 5, 0, 0⟩] ∧
      (build []).charsGrid.itemAtPosition 0 0 = some (.spacerItem 5 5) ∧
      (QLayoutItem.spacerItem 5 5).widget = none ∧
      new [] = none := by
  decide

/-! ## Keyboard navigation -/

/-- C7, evaluated on the one-character string `a`: from the first cell the
first `upPressed` gives the focus to `pressTab`, the second to `selectedChars`;
in the third, the last item of the grid is the spacer, whose `widget()` is
null, and `setFocus()` is called through this null pointer. -/
theorem upPressed_thrice_one_char :
    (new [97]).map focus = some (some (.button ⟨[49], 97, ⟨0, 0⟩⟩)) ∧
      ((new [97]).bind upPressed).map focus = some (some .pressTab) ∧
      (((new [97]).bind upPressed).bind upPressed).map focus = some (some .selectedChars) ∧
      (((new [97]).bind upPressed).bind upPressed).map
          (fun d => d.charsGrid.itemAt (d.charsGrid.count - 1))
        = some (some (.spacerItem 5 5)) ∧
      (((new [97]).bind upPressed).bind upPressed).bind upPressed = none := by
  decide

/-- C8, evaluated on the one-character string `a`: with the only cell, at
(0,0), focused, `downPressed` finds nothing at (1,0), finds the spacer at
(0,1), and calls `setFocus()` through the null `widget()` of that spacer. -/
theorem downPressed_one_char :
    (new [97]).map focus = some (some (.button ⟨[49], 97, ⟨0, 0⟩⟩)) ∧
      (new [97]).map (fun d => d.charsGrid.itemAtPosition 1 0) = some none ∧
      (new [97]).map (fun d => d.charsGrid.itemAtPosition 0 1)
        = some (some (.spacerItem 5 5)) ∧
      (new [97]).bind downPressed = none := by
  decide

/-- In a grid built for a string of at least 6 code units every item is a push
button: no spacer was added. -/
theorem build_item_is_widget (s : QString) (hs : 6 ≤ s.length) (r c : Int) (item : QLayoutItem)
    (h : (build s).charsGrid.itemAtPosition r c = some item) :
    ∃ btn, item = .widgetItem btn := by
  rw [build_itemAtPosition] at h
  have h5 : ¬ (s.length ≤ 5 ∧ r = 0 ∧ c = (s.length : Int)) := by omega
  rw [if_neg h5] at h
  split_ifs at h
  · cases hch : s[(r * gridWidth s + c).toNat]? with
    | none => rw [hch] at h; simp at h
    | some ch =>
      rw [hch] at h
      simp only [Option.map_some', Option.or_some, Option.some.injEq] at h
      exact ⟨_, h.symm⟩

/-- For a source string of at least 6 code units, `downPressed` with a cell
focused moves the focus to the cell one row below if the grid has one,
otherwise to the cell one column to the right if the grid has one, otherwise
to `selectedChars`; it never goes through a null pointer. -/
theorem downPressed_long (s : QString) (hs : 6 ≤ s.length) (d : PickcharsDialog)
    (hd : new s = some d) (here : QPushButton) :
    downPressed { d with focus := some (.button here) }
      = some { d with focus :=
          match d.charsGrid.itemAtPosition (here.gridpos.x + 1) here.gridpos.y with
          | some (.widgetItem below) => some (.button below)
          | _ =>
            match d.charsGrid.itemAtPosition here.gridpos.x (here.gridpos.y + 1) with
            | some (.widgetItem right) => some (.button right)
            | _ => some .selectedChars } := by
  obtain ⟨_, hgrid⟩ := new_charsGrid s d hd
  simp only [downPressed]
  cases h1 : d.charsGrid.itemAtPosition (here.gridpos.x + 1) here.gridpos.y with
  | some item =>
    obtain ⟨btn, rfl⟩ := build_item_is_widget s hs _ _ item (hgrid ▸ h1)
    rfl
  | none =>
    cases h2 : d.charsGrid.itemAtPosition here.gridpos.x (here.gridpos.y + 1) with
    | some item =>
      obtain ⟨btn, rfl⟩ := build_item_is_widget s hs _ _ item (hgrid ▸ h2)
      rfl
    | none => rfl

/-- For a source string of 1 to 5 code units, `downPressed` with the last cell
focused reaches the spacer and goes through its null `widget()`. -/
theorem downPressed_short (s : QString) (h1 : 1 ≤ s.length) (h5 : s.length ≤ 5) :
    ∃ d, new s = some d ∧ (d.withFocusAt 0 ((s.length : Int) - 1)).isSome = true ∧
      (d.withFocusAt 0 ((s.length : Int) - 1)).bind downPressed = none := by
  cases s with
  | nil => simp at h1
  | cons ch rest =>
    have hcases := gridWidth_cases (ch :: rest)
    have hw : (10 : Int) ≤ gridWidth (ch :: rest) := by
      rcases hcases with c | c | c <;> omega
    have hidx : (((ch :: rest).length : Int) - 1).toNat = (ch :: rest).length - 1 := by omega
    have hlt : (ch :: rest).length - 1 < (ch :: rest).length := by omega
    have hhere : (build (ch :: rest)).charsGrid.itemAtPosition 0 (((ch :: rest).length : Int) - 1)
        = some (.widgetItem (cellButton (gridWidth (ch :: rest))
            (((ch :: rest).length : Int) - 1) (ch :: rest)[(ch :: rest).length - 1])) := by
      rw [build_itemAtPosition, if_pos ⟨le_refl _, by omega, by omega⟩]
      simp only [zero_mul, zero_add, hidx, List.getElem?_eq_getElem hlt]
      rfl
    have e0 : (((ch :: rest).length : Int) - 1) / gridWidth (ch :: rest) = 0 :=
      Int.ediv_eq_zero_of_lt (by omega) (by omega)
    have e1 : (((ch :: rest).length : Int) - 1) % gridWidth (ch :: rest)
        = ((ch :: rest).length : Int) - 1 := Int.emod_eq_of_lt (by omega) (by omega)
    have hbelow : (build (ch :: rest)).charsGrid.itemAtPosition (0 + 1)
        (((ch :: rest).length : Int) - 1) = none := by
      rw [build_itemAtPosition, if_pos ⟨by omega, by omega, by omega⟩]
      have hnone : (ch :: rest)[((0 + 1) * gridWidth (ch :: rest)
          + (((ch :: rest).length : Int) - 1)).toNat]? = none := by
        rw [List.getElem?_eq_none_iff]
        omega
      rw [hnone, if_neg (by omega)]
      rfl
    have hright : (build (ch :: rest)).charsGrid.itemAtPosition 0
        (((ch :: rest).length : Int) - 1 + 1) = some (.spacerItem 5 5) := by
      rw [build_itemAtPosition, if_pos ⟨le_refl _, by omega, by omega⟩]
      have hnone : (ch :: rest)[(0 * gridWidth (ch :: rest)
          + (((ch :: rest).length : Int) - 1 + 1)).toNat]? = none := by
        rw [List.getElem?_eq_none_iff]
        omega
      rw [hnone, if_pos ⟨h5, rfl, by omega⟩]
      rfl
    refine ⟨_, new_cons ch rest, ?_, ?_⟩
    · simp only [withFocusAt, hhere]
      rfl
    · simp only [withFocusAt, hhere, Option.some_bind, downPressed, cellButton, e0, e1, hbelow,
        hright, focusItem, QLayoutItem.widget]

/-- For a source string of at least 6 code units, three consecutive
`upPressed` from the first cell move the focus to `pressTab`, then to
`selectedChars`, then to the last cell, labelled with the length of the
string. -/
theorem upPressed_thrice_long (s : QString) (hs : 6 ≤ s.length) :
    ∃ d0 d1 d2 d3 last, new s = some d0 ∧
      upPressed d0 = some d1 ∧ d1.focus = some .pressTab ∧
      upPressed d1 = some d2 ∧ d2.focus = some .selectedChars ∧
      upPressed d2 = some d3 ∧ s.getLast? = some last ∧
      d3.focus = some (.button ⟨QString.number s.length, last,
        ⟨((s.length : Int) - 1) / gridWidth s, ((s.length : Int) - 1) % gridWidth s⟩⟩) := by
  cases s with
  | nil => simp at hs
  | cons ch rest =>
    have hw := gridWidth_pos (ch :: rest)
    have hup : (build (ch :: rest)).charsGrid.itemAtPosition (0 - 1) 0 = none := by
      rw [build_itemAtPosition, if_neg (by omega)]
    have hleft : (build (ch :: rest)).charsGrid.itemAtPosition 0 (0 - 1) = none := by
      rw [build_itemAtPosition, if_neg (by omega)]
    have hlt : (ch :: rest).length - 1 < (ch :: rest).length := by omega
    have hcount : (build (ch :: rest)).charsGrid.count = ((ch :: rest).length : Int) := by
      unfold QGridLayout.count
      rw [build_things, List.length_append, cellsFrom_length]
      unfold spacerBoxes
      rw [if_neg (by omega)]
      simp
    have hidx : (((ch :: rest).length : Int) - 1).toNat = (ch :: rest).length - 1 := by omega
    have hcast : (0 : Int) + (((ch :: rest).length - 1 : Nat) : Int)
        = ((ch :: rest).length : Int) - 1 := by omega
    have hlast : (build (ch :: rest)).charsGrid.itemAt ((build (ch :: rest)).charsGrid.count - 1)
        = some (.widgetItem (cellButton (gridWidth (ch :: rest))
            (((ch :: rest).length : Int) - 1) (ch :: rest)[(ch :: rest).length - 1])) := by
      rw [hcount]
      unfold QGridLayout.itemAt
      rw [if_neg (by omega), hidx, build_things,
        List.getElem?_append_left (by rw [cellsFrom_length]; exact hlt), cellsFrom_getElem?,
        List.getElem?_eq_getElem hlt, hcast]
      rfl
    refine ⟨_, { build (ch :: rest) with focus := some .pressTab },
      { build (ch :: rest) with focus := some .selectedChars },
      { build (ch :: rest) with focus := some (.button (cellButton (gridWidth (ch :: rest))
          (((ch :: rest).length : Int) - 1) (ch :: rest)[(ch :: rest).length - 1])) },
      (ch :: rest)[(ch :: rest).length - 1], new_cons ch rest, ?_, rfl, rfl, rfl, ?_, ?_, ?_⟩
    · simp only [upPressed, cellButton, Int.zero_ediv, Int.zero_emod, hup, hleft]
    · simp only [upPressed, hlast, focusItem, QLayoutItem.widget]
    · rw [List.getLast?_eq_getElem?, List.getElem?_eq_getElem hlt]
    · simp [cellButton]

/-- For a source string of 1 to 5 code units, the third of three consecutive
`upPressed` from the first cell reaches the spacer, the last item of the grid,
and goes through its null `widget()`. -/
theorem upPressed_thrice_short (s : QString) (h1 : 1 ≤ s.length) (h5 : s.length ≤ 5) :
    ∃ d0 d1 d2, new s = some d0 ∧
      upPressed d0 = some d1 ∧ d1.focus = some .pressTab ∧
      upPressed d1 = some d2 ∧ d2.focus = some .selectedChars ∧
      upPressed d2 = none := by
  cases s with
  | nil => simp at h1
  | cons ch rest =>
    have hw := gridWidth_pos (ch :: rest)
    have hup : (build (ch :: rest)).charsGrid.itemAtPosition (0 - 1) 0 = none := by
      rw [build_itemAtPosition, if_neg (by omega)]
    have hleft : (build (ch :: rest)).charsGrid.itemAtPosition 0 (0 - 1) = none := by
      rw [build_itemAtPosition, if_neg (by omega)]
    have hsp : spacerBoxes (ch :: rest).length
        = [⟨.spacerItem 5 5, 0, ((ch :: rest).length : Int)⟩] := by
      unfold spacerBoxes
      rw [if_pos h5]
    have hcount : (build (ch :: rest)).charsGrid.count = ((ch :: rest).length : Int) + 1 := by
      unfold QGridLayout.count
      rw [build_things, List.length_append, cellsFrom_length, hsp]
      simp
    have hidx : (((ch :: rest).length : Int) + 1 - 1).toNat = (ch :: rest).length := by omega
    have hlast : (build (ch :: rest)).charsGrid.itemAt ((build (ch :: rest)).charsGrid.count - 1)
        = some (.spacerItem 5 5) := by
      rw [hcount]
      unfold QGridLayout.itemAt
      rw [if_neg (by omega), hidx, build_things,
        List.getElem?_append_right (by rw [cellsFrom_length]), cellsFrom_length, hsp]
      simp
    refine ⟨_, { build (ch :: rest) with focus := some .pressTab },
      { build (ch :: rest) with focus := some .selectedChars }, new_cons ch rest, ?_, rfl, rfl,
      rfl, ?_⟩
    · simp only [upPressed, cellButton, Int.zero_ediv, Int.zero_emod, hup, hleft]
    · simp only [upPressed, hlast, focusItem, QLayoutItem.widget]

/-- C9 as stated fails: for the 11-character string `abcdefghijk` (two rows of
width 10) and the focus on the cell at (0,1), `upPressed` moves the focus to
the cell at (0,0), labelled 1, while the cell of column 0 with the largest row
index is the one at (1,0), labelled 11. -/
theorem upPressed_row0_not_last_row :
    (((new [97, 98, 99, 100, 101, 102, 103, 104, 105, 106, 107]).bind
          (fun d => d.withFocusAt 0 1)).bind upPressed).map focus
        = some (some (.button ⟨[49], 97, ⟨0, 0⟩⟩)) ∧
      (new [97, 98, 99, 100, 101, 102, 103, 104, 105, 106, 107]).map
          (fun d => lastInColumn d.charsGrid 0)
        = some (some ⟨[49, 49], 107, ⟨1, 0⟩⟩) ∧
      (((new [97, 98, 99, 100, 101, 102, 103, 104, 105, 106, 107]).bind
          (fun d => d.withFocusAt 0 1)).bind upPressed).bind focus
        ≠ ((new [97, 98, 99, 100, 101, 102, 103, 104, 105, 106, 107]).bind
            (fun d => lastInColumn d.charsGrid 0)).map Widget.button := by
  decide

/-- C9, amended: for a non-empty source string and a cell of row 0, at column
`c`, `upPressed` with that cell focused moves the focus to the cell
immediately to its left, at (0, c - 1), when `c ≥ 1`, and to the toggle control
`pressTab` when `c = 0`.  The cells of row 0 are those at the columns `c` below
both the length of the string and the width of the grid. -/
theorem upPressed_from_row0 (s : QString) (c : Nat) (hc : c < s.length)
    (hcw : (c : Int) < gridWidth s) :
    ∃ d here, new s = some d ∧
      d.charsGrid.itemAtPosition 0 c = some (.widgetItem here) ∧
      here.gridpos = ⟨0, c⟩ ∧
      (c = 0 →
        upPressed { d with focus := some (.button here) }
          = some { d with focus := some .pressTab }) ∧
      (0 < c →
        ∃ left, d.charsGrid.itemAtPosition 0 ((c : Int) - 1) = some (.widgetItem left) ∧
          left.gridpos = ⟨0, (c : Int) - 1⟩ ∧
          upPressed { d with focus := some (.button here) }
            = some { d with focus := some (.button left) }) := by
  cases s with
  | nil => simp at hc
  | cons ch rest =>
    have e0 : (c : Int) / gridWidth (ch :: rest) = 0 := Int.ediv_eq_zero_of_lt (by omega) hcw
    have e1 : (c : Int) % gridWidth (ch :: rest) = c := Int.emod_eq_of_lt (by omega) hcw
    have hhere : (build (ch :: rest)).charsGrid.itemAtPosition 0 c
        = some (.widgetItem (cellButton (gridWidth (ch :: rest)) c (ch :: rest)[c])) := by
      rw [build_itemAtPosition, if_pos ⟨le_refl _, by omega, hcw⟩]
      simp [List.getElem?_eq_getElem hc]
    have hup : (build (ch :: rest)).charsGrid.itemAtPosition (0 - 1) c = none := by
      rw [build_itemAtPosition, if_neg (by omega)]
    refine ⟨_, cellButton (gridWidth (ch :: rest)) c (ch :: rest)[c], new_cons ch rest,
      hhere, ?_, ?_, ?_⟩
    · simp [cellButton, e0, e1]
    · intro hc0
      have hleft : (build (ch :: rest)).charsGrid.itemAtPosition 0 ((c : Int) - 1) = none := by
        rw [build_itemAtPosition, if_neg (by omega)]
      simp only [upPressed, cellButton, e0, e1, hup, hleft]
    · intro hpos
      have hc1 : c - 1 < (ch :: rest).length := by omega
      have ecast : ((c : Int) - 1).toNat = c - 1 := by omega
      have ecast2 : (c : Int) - 1 = ((c - 1 : Nat) : Int) := by omega
      have hleft : (build (ch :: rest)).charsGrid.itemAtPosition 0 ((c : Int) - 1)
          = some (.widgetItem
              (cellButton (gridWidth (ch :: rest)) ((c : Int) - 1) (ch :: rest)[c - 1])) := by
        rw [build_itemAtPosition, if_pos ⟨le_refl _, by omega, by omega⟩]
        simp [ecast, List.getElem?_eq_getElem hc1]
      refine ⟨_, hleft, ?_, ?_⟩
      · have f0 : ((c : Int) - 1) / gridWidth (ch :: rest) = 0 :=
          Int.ediv_eq_zero_of_lt (by omega) (by omega)
        have f1 : ((c : Int) - 1) % gridWidth (ch :: rest) = (c : Int) - 1 :=
          Int.emod_eq_of_lt (by omega) (by omega)
        simp [cellButton, f0, f1]
      · simp only [upPressed, cellButton, e0, e1, hup, hleft, focusItem, QLayoutItem.widget]

/-- Witness of `upPressed_from_row0`: the string `abcdefghijk` and column 1. -/
theorem upPressed_from_row0_witness :
    ∃ d here, new [97, 98, 99, 100, 101, 102, 103, 104, 105, 106, 107] = some d ∧
      d.charsGrid.itemAtPosition 0 ((1 : Nat) : Int) = some (.widgetItem here) ∧
      here.gridpos = ⟨0, ((1 : Nat) : Int)⟩ ∧
      ((1 : Nat) = 0 →
        upPressed { d with focus := some (.button here) }
          = some { d with focus := some .pressTab }) ∧
      (0 < (1 : Nat) →
        ∃ left, d.charsGrid.itemAtPosition 0 (((1 : Nat) : Int) - 1) = some (.widgetItem left) ∧
          left.gridpos = ⟨0, ((1 : Nat) : Int) - 1⟩ ∧
          upPressed { d with focus := some (.button here) }
            = some { d with focus := some (.button left) }) :=
  upPressed_from_row0 [97, 98, 99, 100, 101, 102, 103, 104, 105, 106, 107] 1
    (by decide) (by decide)

end PickcharsDialog

end KeePassXC

namespace KeePassXC

namespace Icons

/-! ## Cache keys -/

theorem hexDigit_ne_colon (d : Nat) : hexDigit d ≠ 58 := by
  show (if d < 10 then 48 + d else 87 + d : Nat) ≠ 58
  split_ifs <;> omega

theorem hexDigit_inj (a b : Nat) (ha : a < 16) (hb : b < 16) (h : hexDigit a = hexDigit b) :
    a = b := by
  change (if a < 10 then 48 + a else 87 + a : Nat) = (if b < 10 then 48 + b else 87 + b) at h
  split_ifs at h <;> omega

theorem name_inj (c1 c2 : QColor) (h : c1.name = c2.name) :
    c1.rgb % 2 ^ 24 = c2.rgb % 2 ^ 24 := by
  unfold QColor.name at h
  simp only [List.cons.injEq, and_true, true_and] at h
  obtain ⟨h5, h4, h3, h2, h1, h0⟩ := h
  have g5 := hexDigit_inj _ _ (Nat.mod_lt _ (by norm_num)) (Nat.mod_lt _ (by norm_num)) h5
  have g4 := hexDigit_inj _ _ (Nat.mod_lt _ (by norm_num)) (Nat.mod_lt _ (by norm_num)) h4
  have g3 := hexDigit_inj _ _ (Nat.mod_lt _ (by norm_num)) (Nat.mod_lt _ (by norm_num)) h3
  have g2 := hexDigit_inj _ _ (Nat.mod_lt _ (by norm_num)) (Nat.mod_lt _ (by norm_num)) h2
  have g1 := hexDigit_inj _ _ (Nat.mod_lt _ (by norm_num)) (Nat.mod_lt _ (by norm_num)) h1
  have g0 := hexDigit_inj _ _ (Nat.mod_lt _ (by norm_num)) (Nat.mod_lt _ (by norm_num)) h0
  norm_num at g5 g4 g3 g2 g1 g0 ⊢
  omega

/-- The override part ends where the first colon after it stands. -/
theorem overridePart_split (c1 c2 : QColor) (n1 n2 : QString)
    (h : overridePart c1 ++ 58 :: n1 = overridePart c2 ++ 58 :: n2) :
    overridePart c1 = overridePart c2 ∧ c1.isValid = c2.isValid ∧ n1 = n2 := by
  unfold overridePart at h ⊢
  cases h1 : c1.isValid <;> cases h2 : c2.isValid <;>
    simp only [h1, h2, QColor.name, if_true, if_false, Bool.false_eq_true, List.cons_append,
      List.nil_append, List.cons.injEq, true_and] at h
  · exact ⟨rfl, rfl, h⟩
  · exact absurd h.1.symm (hexDigit_ne_colon _)
  · exact absurd h.1 (hexDigit_ne_colon _)
  · obtain ⟨a5, a4, a3, a2, a1, a0, a⟩ := h
    refine ⟨?_, rfl, a⟩
    simp only [QColor.name, if_true, a5, a4, a3, a2, a1, a0]

/-- Equal keys of `Icons::icon` have equal flags, override parts and names. -/
theorem cacheName_split (n1 n2 : QString) (r1 r2 : Bool) (c1 c2 : QColor)
    (h : cacheName n1 r1 c1 = cacheName n2 r2 c2) :
    r1 = r2 ∧ overridePart c1 = overridePart c2 ∧ c1.isValid = c2.isValid ∧ n1 = n2 := by
  unfold cacheName at h
  have hflag : r1 = r2 ∧ overridePart c1 ++ 58 :: n1 = overridePart c2 ++ 58 :: n2 := by
    cases r1 <;> cases r2 <;> simp_all
  obtain ⟨ho, hv, hn⟩ := overridePart_split c1 c2 n1 n2 hflag.2
  exact ⟨hflag.1, ho, hv, hn⟩

theorem cacheName_ne_onOff (n m : QString) (r : Bool) (c : QColor) :
    cacheName n r c ≠ onOffCacheName m := by
  intro h
  unfold cacheName onOffCacheName at h
  cases r <;> simp at h

/-! ## Cache behaviour of `Icons::icon` -/

theorem value_insert (h : List (QString × QIcon)) (key : QString) (value : QIcon) :
    QHash.value (QHash.insert h key value) key = value := by
  simp [QHash.value, QHash.insert]

theorem adaptive_not_null (base : QIcon) (isMask : Bool) :
    (QIcon.adaptive base isMask).isNull = false := rfl

/-- The call on a cache entry that is not null: the entry is returned and the
state is left as it is. -/
theorem icon_hit (fromTheme : QString → QString → QIcon) (maskSupported : Bool) (self : Icons)
    (name : QString) (recolor : Bool)
    (h : (QHash.value self.m_iconCache (cacheName name recolor QColor.invalid)).isNull = false) :
    icon fromTheme maskSupported self name recolor QColor.invalid
      = (QHash.value self.m_iconCache (cacheName name recolor QColor.invalid), self) := by
  have hv : QColor.invalid.isValid = false := rfl
  simp only [icon, h, hv]
  simp

/-- The call on a missing or null cache entry: the theme is asked and the
result stored. -/
theorem icon_miss (fromTheme : QString → QString → QIcon) (maskSupported : Bool) (self : Icons)
    (name : QString) (recolor : Bool)
    (h : (QHash.value self.m_iconCache (cacheName name recolor QColor.invalid)).isNull = true) :
    icon fromTheme maskSupported self name recolor QColor.invalid
      = (resolve fromTheme maskSupported name recolor,
          { m_iconCache := QHash.insert self.m_iconCache (cacheName name recolor QColor.invalid)
              (resolve fromTheme maskSupported name recolor),
            themeName := QString.lit "application",
            themeLookups := self.themeLookups ++ [name] }) := by
  have hv : QColor.invalid.isValid = false := rfl
  simp only [icon, h, hv]
  simp

/-- C6 as stated fails: with a theme that resolves no name, an empty cache and
no recolouring, the second of two calls for the name `x` asks the theme again. -/
theorem icon_twice_unresolved_name :
    (icon (fun _ _ => QIcon.null) true ⟨[], [], []⟩ [120] false QColor.invalid).2.themeLookups
        = [[120]] ∧
      (icon (fun _ _ => QIcon.null) true
          (icon (fun _ _ => QIcon.null) true ⟨[], [], []⟩ [120] false QColor.invalid).2
          [120] false QColor.invalid).2.themeLookups
        = [[120], [120]] := by
  decide

/-- Two consecutive calls without override colour: same icon; a cache hit on
a non-null icon; a repeated lookup on a null icon. -/
theorem consecutive_calls (fromTheme : QString → QString → QIcon) (maskSupported : Bool) (self : Icons)
    (name : QString) (recolor : Bool) :
    (icon fromTheme maskSupported
          (icon fromTheme maskSupported self name recolor QColor.invalid).2
          name recolor QColor.invalid).1
        = (icon fromTheme maskSupported self name recolor QColor.invalid).1 ∧
      ((icon fromTheme maskSupported self name recolor QColor.invalid).1.isNull = false →
        (icon fromTheme maskSupported
            (icon fromTheme maskSupported self name recolor QColor.invalid).2
            name recolor QColor.invalid).2
          = (icon fromTheme maskSupported self name recolor QColor.invalid).2) ∧
      (recolor = true →
        (icon fromTheme maskSupported self name recolor QColor.invalid).1.isNull = false) ∧
      ((icon fromTheme maskSupported self name recolor QColor.invalid).1.isNull = true →
        (icon fromTheme maskSupported
            (icon fromTheme maskSupported self name recolor QColor.invalid).2
            name recolor QColor.invalid).2.themeLookups
          = (icon fromTheme maskSupported self name recolor QColor.invalid).2.themeLookups
              ++ [name]) := by
  cases hc : (QHash.value self.m_iconCache (cacheName name recolor QColor.invalid)).isNull with
  | false =>
    rw [icon_hit fromTheme maskSupported self name recolor hc]
    simp only [icon_hit fromTheme maskSupported self name recolor hc, hc]
    simp
  | true =>
    rw [icon_miss fromTheme maskSupported self name recolor hc]
    have hnn : recolor = true → (resolve fromTheme maskSupported name recolor).isNull = false := by
      intro hr
      subst hr
      rfl
    cases hn : (resolve fromTheme maskSupported name recolor).isNull with
    | false =>
      have hv : (QHash.value
          (QHash.insert self.m_iconCache (cacheName name recolor QColor.invalid)
            (resolve fromTheme maskSupported name recolor))
          (cacheName name recolor QColor.invalid)).isNull = false := by
        rw [value_insert]; exact hn
      have e := icon_hit fromTheme maskSupported
        { m_iconCache := QHash.insert self.m_iconCache (cacheName name recolor QColor.invalid)
            (resolve fromTheme maskSupported name recolor),
          themeName := QString.lit "application",
          themeLookups := self.themeLookups ++ [name] } name recolor hv
      simp only [e, value_insert, hn]
      simp
    | true =>
      have hv : (QHash.value
          (QHash.insert self.m_iconCache (cacheName name recolor QColor.invalid)
            (resolve fromTheme maskSupported name recolor))
          (cacheName name recolor QColor.invalid)).isNull = true := by
        rw [value_insert]; exact hn
      have e := icon_miss fromTheme maskSupported
        { m_iconCache := QHash.insert self.m_iconCache (cacheName name recolor QColor.invalid)
            (resolve fromTheme maskSupported name recolor),
          themeName := QString.lit "application",
          themeLookups := self.themeLookups ++ [name] } name recolor hv
      have hr : recolor = false := by
        cases recolor with
        | false => rfl
        | true => rw [hnn rfl] at hn; cases hn
      simp only [e, hn]
      simp [hr]

theorem resolve_isNull (fromTheme : QString → QString → QIcon) (maskSupported : Bool)
    (name : QString) (recolor : Bool) :
    (resolve fromTheme maskSupported name recolor).isNull
      = (!recolor && (fromTheme (QString.lit "application") name).isNull) := by
  cases recolor <;> rfl

/-- The icon returned by a call without override colour is null exactly when
the cache entry is missing or null, `recolor` is off and the theme resolves the
name to a null icon. -/
theorem icon_fst_isNull (fromTheme : QString → QString → QIcon) (maskSupported : Bool)
    (self : Icons) (name : QString) (recolor : Bool) :
    (icon fromTheme maskSupported self name recolor QColor.invalid).1.isNull = true ↔
      recolor = false ∧ (fromTheme (QString.lit "application") name).isNull = true ∧
        (QHash.value self.m_iconCache (cacheName name recolor QColor.invalid)).isNull = true := by
  cases hc : (QHash.value self.m_iconCache (cacheName name recolor QColor.invalid)).isNull with
  | false =>
    rw [icon_hit fromTheme maskSupported self name recolor hc]
    simp [hc]
  | true =>
    rw [icon_miss fromTheme maskSupported self name recolor hc]
    simp [resolve_isNull]

/-- C6, amended: for every theme, name, recolor flag and cache state, two
consecutive calls of `icon(name, recolor)` without override colour return the
same icon.  That icon is null exactly when the cache entry was missing or
null, `recolor` is off and the theme resolves the name to a null icon.  When
the icon is not null, which is always so with `recolor` set and always so when
the theme resolves the name to a non-null icon, the second call returns the
cached entry and leaves the state, the list of theme lookups included, as the
first call left it.  When the icon is null, the second call asks the theme for
the name once more. -/
theorem icon_twice (fromTheme : QString → QString → QIcon) (maskSupported : Bool) (self : Icons)
    (name : QString) (recolor : Bool) :
    (icon fromTheme maskSupported
          (icon fromTheme maskSupported self name recolor QColor.invalid).2
          name recolor QColor.invalid).1
        = (icon fromTheme maskSupported self name recolor QColor.invalid).1 ∧
      ((icon fromTheme maskSupported self name recolor QColor.invalid).1.isNull = false →
        (icon fromTheme maskSupported
            (icon fromTheme maskSupported self name recolor QColor.invalid).2
            name recolor QColor.invalid).2
          = (icon fromTheme maskSupported self name recolor QColor.invalid).2) ∧
      (recolor = true →
        (icon fromTheme maskSupported self name recolor QColor.invalid).1.isNull = false) ∧
      ((icon fromTheme maskSupported self name recolor QColor.invalid).1.isNull = true →
        (icon fromTheme maskSupported
            (icon fromTheme maskSupported self name recolor QColor.invalid).2
            name recolor QColor.invalid).2.themeLookups
          = (icon fromTheme maskSupported self name recolor QColor.invalid).2.themeLookups
              ++ [name]) ∧
      ((fromTheme (QString.lit "application") name).isNull = false →
        (icon fromTheme maskSupported self name recolor QColor.invalid).1.isNull = false) ∧
      (recolor = true ∨ (fromTheme (QString.lit "application") name).isNull = false →
        icon fromTheme maskSupported
            (icon fromTheme maskSupported self name recolor QColor.invalid).2
            name recolor QColor.invalid
          = icon fromTheme maskSupported self name recolor QColor.invalid ∧
        (icon fromTheme maskSupported
            (icon fromTheme maskSupported self name recolor QColor.invalid).2
            name recolor QColor.invalid).2.themeLookups
          = (icon fromTheme maskSupported self name recolor QColor.invalid).2.themeLookups) ∧
      ((icon fromTheme maskSupported self name recolor QColor.invalid).1.isNull = true ↔
        recolor = false ∧ (fromTheme (QString.lit "application") name).isNull = true ∧
          (QHash.value self.m_iconCache (cacheName name recolor QColor.invalid)).isNull
            = true) := by
  obtain ⟨hsame, hhit, hrec, hmiss⟩ := consecutive_calls fromTheme maskSupported self name recolor
  have hnull := icon_fst_isNull fromTheme maskSupported self name recolor
  have hres : (fromTheme (QString.lit "application") name).isNull = false →
      (icon fromTheme maskSupported self name recolor QColor.invalid).1.isNull = false := by
    intro ht
    cases hi : (icon fromTheme maskSupported self name recolor QColor.invalid).1.isNull with
    | false => rfl
    | true =>
      have := (hnull.1 hi).2.1
      rw [ht] at this
      cases this
  refine ⟨hsame, hhit, hrec, hmiss, hres, ?_, hnull⟩
  intro hor
  have hnn : (icon fromTheme maskSupported self name recolor QColor.invalid).1.isNull = false :=
    hor.elim hrec hres
  have hst := hhit hnn
  exact ⟨Prod.ext hsame hst, by rw [hst]⟩

/-- Witness of `icon_twice`: a theme that resolves every name and an empty
cache; for the name `x` with recolouring, and for the name `x` without
recolouring, the second call leaves the state untouched. -/
theorem icon_twice_witness :
    (icon (fun _ n => QIcon.loaded n.length) true
          (icon (fun _ n => QIcon.loaded n.length) true ⟨[], [], []⟩ [120] true
            QColor.invalid).2
          [120] true QColor.invalid).2
        = (icon (fun _ n => QIcon.loaded n.length) true ⟨[], [], []⟩ [120] true
            QColor.invalid).2 ∧
      (icon (fun _ n => QIcon.loaded n.length) true
          (icon (fun _ n => QIcon.loaded n.length) true ⟨[], [], []⟩ [120] false
            QColor.invalid).2
          [120] false QColor.invalid).2.themeLookups
        = (icon (fun _ n => QIcon.loaded n.length) true ⟨[], [], []⟩ [120] false
            QColor.invalid).2.themeLookups ∧
      (icon (fun _ n => QIcon.loaded n.length) true ⟨[], [], []⟩ [120] false
          QColor.invalid).2.themeLookups = [[120]] :=
  ⟨(icon_twice (fun _ n => QIcon.loaded n.length) true ⟨[], [], []⟩ [120] true).2.1 (by decide),
    ((icon_twice (fun _ n => QIcon.loaded n.length) true ⟨[], [], []⟩ [120] false).2.2.2.2.2.1
      (Or.inr (by decide))).2,
    by decide⟩

/-! ## Requests with and without an override colour -/

theorem find_filter_other (h : List (QString × QIcon)) (key other : QString)
    (hne : key ≠ other) :
    (h.filter (fun kv => !decide (kv.1 = key))).find? (fun kv => decide (kv.1 = other))
      = h.find? (fun kv => decide (kv.1 = other)) := by
  induction h with
  | nil => rfl
  | cons kv t ih =>
    by_cases hk : kv.1 = key
    · have hk2 : ¬ kv.1 = other := fun e => hne (hk.symm.trans e)
      rw [List.filter_cons_of_neg (by simpa using hk), List.find?_cons_of_neg _ (by simpa using hk2)]
      exact ih
    · rw [List.filter_cons_of_pos (by simpa using hk)]
      by_cases ho : kv.1 = other
      · rw [List.find?_cons_of_pos _ (by simpa using ho), List.find?_cons_of_pos _ (by simpa using ho)]
      · rw [List.find?_cons_of_neg _ (by simpa using ho), List.find?_cons_of_neg _ (by simpa using ho)]
        exact ih

theorem value_insert_ne (h : List (QString × QIcon)) (key other : QString) (value : QIcon)
    (hne : key ≠ other) :
    QHash.value (QHash.insert h key value) other = QHash.value h other := by
  unfold QHash.value QHash.insert
  rw [List.find?_cons_of_neg _ (by simpa using hne), find_filter_other h key other hne]

/-- A call with a valid override colour always asks the theme and stores the
result under its own key. -/
theorem icon_override (fromTheme : QString → QString → QIcon) (maskSupported : Bool)
    (self : Icons) (name : QString) (recolor : Bool) (overrideColor : QColor)
    (h : overrideColor.isValid = true) :
    icon fromTheme maskSupported self name recolor overrideColor
      = (resolve fromTheme maskSupported name recolor,
          { m_iconCache := QHash.insert self.m_iconCache (cacheName name recolor overrideColor)
              (resolve fromTheme maskSupported name recolor),
            themeName := QString.lit "application",
            themeLookups := self.themeLookups ++ [name] }) := by
  simp only [icon, h]
  simp

/-- The icon returned by a call without override colour depends on the cache
only through the entry under the key of the call. -/
theorem icon_fst_of_value (fromTheme : QString → QString → QIcon) (maskSupported : Bool)
    (self other : Icons) (name : QString) (recolor : Bool)
    (h : QHash.value other.m_iconCache (cacheName name recolor QColor.invalid)
      = QHash.value self.m_iconCache (cacheName name recolor QColor.invalid)) :
    (icon fromTheme maskSupported other name recolor QColor.invalid).1
      = (icon fromTheme maskSupported self name recolor QColor.invalid).1 := by
  cases hc : (QHash.value self.m_iconCache (cacheName name recolor QColor.invalid)).isNull with
  | false =>
    rw [icon_hit fromTheme maskSupported self name recolor hc,
      icon_hit fromTheme maskSupported other name recolor (by rw [h]; exact hc), h]
  | true =>
    rw [icon_miss fromTheme maskSupported self name recolor hc,
      icon_miss fromTheme maskSupported other name recolor (by rw [h]; exact hc)]

/-- C10: two keys built by `Icons::icon` are equal only if the recolor flags are
equal, the override parts are equal (both absent, or both valid with the same
red, green and blue channels) and the names are equal, also when a name
contains `:` or `#`; and no such key is a key `onoff/<name>` of `onOffIcon`.
Hence a call of `icon` with a valid override colour does not read the cache (it
returns what the theme resolves), stores its result under its own key, leaves
the entry of every request without override colour and every `onoff/` entry as
it was, and does not change what a later request without override colour
returns. -/
theorem cacheName_injective (n1 n2 : QString) (r1 r2 : Bool) (c1 c2 : QColor) :
    (cacheName n1 r1 c1 = cacheName n2 r2 c2 →
        r1 = r2 ∧ overridePart c1 = overridePart c2 ∧ c1.isValid = c2.isValid ∧
          (c1.isValid = true → c1.rgb % 2 ^ 24 = c2.rgb % 2 ^ 24) ∧ n1 = n2) ∧
      (∀ m : QString, cacheName n1 r1 c1 ≠ onOffCacheName m) ∧
      (c1.isValid = true →
        ∀ (fromTheme : QString → QString → QIcon) (maskSupported : Bool) (self : Icons),
          (icon fromTheme maskSupported self n1 r1 c1).1
              = resolve fromTheme maskSupported n1 r1 ∧
            QHash.value (icon fromTheme maskSupported self n1 r1 c1).2.m_iconCache
                (cacheName n1 r1 c1)
              = resolve fromTheme maskSupported n1 r1 ∧
            QHash.value (icon fromTheme maskSupported self n1 r1 c1).2.m_iconCache
                (cacheName n2 r2 QColor.invalid)
              = QHash.value self.m_iconCache (cacheName n2 r2 QColor.invalid) ∧
            (∀ m : QString,
              QHash.value (icon fromTheme maskSupported self n1 r1 c1).2.m_iconCache
                  (onOffCacheName m)
                = QHash.value self.m_iconCache (onOffCacheName m)) ∧
            (icon fromTheme maskSupported
                (icon fromTheme maskSupported self n1 r1 c1).2 n2 r2 QColor.invalid).1
              = (icon fromTheme maskSupported self n2 r2 QColor.invalid).1) := by
  refine ⟨?_, fun m => cacheName_ne_onOff n1 m r1 c1, ?_⟩
  · intro h
    obtain ⟨hr, ho, hv, hn⟩ := cacheName_split n1 n2 r1 r2 c1 c2 h
    refine ⟨hr, ho, hv, ?_, hn⟩
    intro hvalid
    have hvalid2 : c2.isValid = true := by rw [← hv]; exact hvalid
    unfold overridePart at ho
    rw [if_pos hvalid, if_pos hvalid2] at ho
    exact name_inj c1 c2 ho
  · intro hvalid fromTheme maskSupported self
    have hne : cacheName n1 r1 c1 ≠ cacheName n2 r2 QColor.invalid := by
      intro h
      have hv := (cacheName_split n1 n2 r1 r2 c1 QColor.invalid h).2.2.1
      rw [hvalid] at hv
      cases hv
    have hkeep : QHash.value (icon fromTheme maskSupported self n1 r1 c1).2.m_iconCache
        (cacheName n2 r2 QColor.invalid)
        = QHash.value self.m_iconCache (cacheName n2 r2 QColor.invalid) := by
      rw [icon_override fromTheme maskSupported self n1 r1 c1 hvalid]
      exact value_insert_ne _ _ _ _ hne
    refine ⟨?_, ?_, hkeep, ?_, ?_⟩
    · rw [icon_override fromTheme maskSupported self n1 r1 c1 hvalid]
    · rw [icon_override fromTheme maskSupported self n1 r1 c1 hvalid]
      exact value_insert _ _ _
    · intro m
      rw [icon_override fromTheme maskSupported self n1 r1 c1 hvalid]
      exact value_insert_ne _ _ _ _ (cacheName_ne_onOff n1 m r1 c1)
    · exact icon_fst_of_value fromTheme maskSupported self _ n2 r2 hkeep

/-- Witness of `cacheName_injective`: the key of the name `a:b`, recoloured,
with the override colour `#ff00a1`, against itself; and a call with that
override colour on a cache that holds an entry for the same name and flag
without override colour, which the call leaves in place. -/
theorem cacheName_injective_witness :
    (true = true ∧ overridePart ⟨true, 0xff00a1⟩ = overridePart ⟨true, 0xff00a1⟩ ∧
        (⟨true, 0xff00a1⟩ : QColor).isValid = (⟨true, 0xff00a1⟩ : QColor).isValid ∧
        ((⟨true, 0xff00a1⟩ : QColor).isValid = true →
          (⟨true, 0xff00a1⟩ : QColor).rgb % 2 ^ 24 = (⟨true, 0xff00a1⟩ : QColor).rgb % 2 ^ 24) ∧
        ([97, 58, 98] : QString) = [97, 58, 98]) ∧
      cacheName [97, 58, 98] true ⟨true, 0xff00a1⟩
        = [49, 58, 35, 102, 102, 48, 48, 97, 49, 58, 97, 58, 98] ∧
      QHash.value
          (icon (fun _ _ => QIcon.loaded 1) true
            ⟨[(cacheName [97, 58, 98] true QColor.invalid, QIcon.loaded 7)], [], []⟩
            [97, 58, 98] true ⟨true, 0xff00a1⟩).2.m_iconCache
          (cacheName [97, 58, 98] true QColor.invalid)
        = QHash.value [(cacheName [97, 58, 98] true QColor.invalid, QIcon.loaded 7)]
            (cacheName [97, 58, 98] true QColor.invalid) ∧
      QHash.value [(cacheName [97, 58, 98] true QColor.invalid, QIcon.loaded 7)]
          (cacheName [97, 58, 98] true QColor.invalid)
        = QIcon.loaded 7 :=
  ⟨(cacheName_injective [97, 58, 98] [97, 58, 98] true true ⟨true, 0xff00a1⟩
      ⟨true, 0xff00a1⟩).1 rfl, by decide,
    ((cacheName_injective [97, 58, 98] [97, 58, 98] true true ⟨true, 0xff00a1⟩
      ⟨true, 0xff00a1⟩).2.2 rfl (fun _ _ => QIcon.loaded 1) true
      ⟨[(cacheName [97, 58, 98] true QColor.invalid, QIcon.loaded 7)], [], []⟩).2.2.1,
    by decide⟩

end Icons

end KeePassXC
